import Mathlib

/-!
# render-page-api: browser pool and render handler

A shallow embedding of `browser.go`, `handler.go` and the error constants of `main.go`.

* The buffered channel `pool chan *rod.Browser` is a record of its capacity, its queued
  elements and its closed flag; `send`, `recv` and `close` follow the Go language rules
  (a send blocks on a full buffer and panics on a closed channel, a receive on a closed and
  drained channel yields the zero value at once).
* A `*rod.Browser` is `Option Browser`: `none` is the nil pointer.
* What the environment decides (whether the wait context is already done when `select` runs,
  which ready case `select` picks, how the page load inside `rod.Try` ends, whether a browser
  process launches) is passed in as an explicit argument.
-/

namespace RenderPageApi

/-! ## Go runtime -/

/-- Ways in which a call does not return normally. -/
inductive Fault
  | exit (code : Nat)
  | panic (msg : String)
  | blocked
  deriving DecidableEq, Repr

/-- Equality of results is decidable. -/
instance instDecidableEqExcept {ε α : Type} [DecidableEq ε] [DecidableEq α] :
    DecidableEq (Except ε α)
  | .ok a, .ok b =>
    if h : a = b then isTrue (congrArg Except.ok h)
    else isFalse fun h1 => h (Except.ok.inj h1)
  | .error a, .error b =>
    if h : a = b then isTrue (congrArg Except.error h)
    else isFalse fun h1 => h (Except.error.inj h1)
  | .ok _, .error _ => isFalse fun h1 => Except.noConfusion h1
  | .error _, .ok _ => isFalse fun h1 => Except.noConfusion h1

/-- Go `error` values, as far as `errors.Is(err, context.DeadlineExceeded)` and `Error()`
can tell them apart: a value made by `errors.New`, the sentinel `context.DeadlineExceeded`,
or an error whose `Unwrap` gives another error. -/
inductive GoError
  | new (msg : String)
  | deadlineExceeded
  | wrap (msg : String) (inner : GoError)
  deriving DecidableEq, Repr

/-- The method `Error()`. -/
def GoError.Error : GoError → String
  | .new msg => msg
  | .deadlineExceeded => "context deadline exceeded"
  | .wrap msg _ => msg

/-- The test `errors.Is(err, context.DeadlineExceeded)`: walks the `Unwrap` chain. -/
def GoError.isDeadlineExceeded : GoError → Bool
  | .new _ => false
  | .deadlineExceeded => true
  | .wrap _ inner => inner.isDeadlineExceeded

/-- The function `strings.HasPrefix`. -/
def HasPrefix (s p : String) : Bool :=
  p.data.isPrefixOf s.data

/-- A running browser process (the target of a non-nil `*rod.Browser`). -/
structure Browser where
  id : Nat
  deriving DecidableEq, Repr

/-- The buffered channel `chan *rod.Browser`. -/
structure Chan where
  cap : Nat
  buf : List (Option Browser)
  closed : Bool
  deriving DecidableEq, Repr

/-- The builtin `make(chan *rod.Browser, n)`. -/
def Chan.make (n : Int) : Except Fault Chan :=
  if n < 0 then .error (.panic "makechan: size out of range")
  else .ok { cap := n.toNat, buf := [], closed := false }

/-- The statement `ch <- v` with no receiver waiting. -/
def Chan.send (c : Chan) (v : Option Browser) : Except Fault Chan :=
  if c.closed then .error (.panic "send on closed channel")
  else if c.buf.length < c.cap then .ok { c with buf := c.buf ++ [v] }
  else .error .blocked

/-- The expression `<-ch` when it is ready (`none` when it would block): the oldest queued
element, or the zero value `nil` from a closed and drained channel. -/
def Chan.recv (c : Chan) : Option (Option Browser × Chan) :=
  match c.buf with
  | v :: rest => some (v, { c with buf := rest })
  | [] => if c.closed then some (none, c) else none

/-- The builtin `close(ch)`. -/
def Chan.close (c : Chan) : Except Fault Chan :=
  if c.closed then .error (.panic "close of closed channel")
  else .ok { c with closed := true }

/-! ## main.go: error constants -/

def waitForBrowserTimeoutError : GoError :=
  .new "too many requests. Increase 'browsers_count' or 'browser_wait' parameters"

def tooLongUploadDeadlineError : GoError :=
  .new "page load timeout. Deadline exceeded"

def somethingWentWrongError : GoError :=
  .new "something went wrong =("

/-! ## browser.go -/

/-- The field of `config.Config` that the pool logic reads. -/
structure Config where
  BrowsersCount : Int
  deriving DecidableEq, Repr

structure BrowserPool where
  cfg : Config
  pool : Chan
  deriving DecidableEq, Repr

/-- What `select` in `Get` sees. `timeoutDone`: `timeout.Done()` is already readable when the
`select` is entered (the pool context is cancelled or `BrowserWait` is not positive).
`pickTimeout`: the case the runtime picks when both cases are ready. -/
structure SelectEnv where
  timeoutDone : Bool
  pickTimeout : Bool
  deriving DecidableEq, Repr

/-- `BrowserPool.Get`. When the receive is not ready and nothing is sent meanwhile, the wait
ends when `timeout.Done()` fires. -/
def BrowserPool.Get (bp : BrowserPool) (sel : SelectEnv) :
    (Option Browser × Option GoError) × BrowserPool :=
  match bp.pool.recv with
  | none => ((none, some waitForBrowserTimeoutError), bp)
  | some (browser, ch) =>
    if sel.timeoutDone && sel.pickTimeout then ((none, some waitForBrowserTimeoutError), bp)
    else ((browser, none), { bp with pool := ch })

/-- `BrowserPool.Put`. -/
def BrowserPool.Put (bp : BrowserPool) (browser : Option Browser) : Except Fault BrowserPool :=
  match browser with
  | none => .ok bp
  | some b => (bp.pool.send (some b)).map fun ch => { bp with pool := ch }

/-- The `for browser := range bp.pool` loop of `Close` on a closed channel holding `buf`:
the browsers on which `browser.Close()` is called, in order. The call on a nil pointer
panics; the error a call returns is only logged. -/
def closeLoop : List (Option Browser) → List Browser → Except Fault (List Browser)
  | [], acc => .ok acc
  | none :: _, _ => .error (.panic "invalid memory address or nil pointer dereference")
  | some b :: rest, acc => closeLoop rest (acc ++ [b])

/-- `BrowserPool.Close`: the pool afterwards and the browsers it closed. -/
def BrowserPool.Close (bp : BrowserPool) : Except Fault (BrowserPool × List Browser) :=
  match bp.pool.close with
  | .error f => .error f
  | .ok ch =>
    match closeLoop ch.buf [] with
    | .error f => .error f
    | .ok closedBrowsers => .ok ({ bp with pool := { ch with buf := [] } }, closedBrowsers)

/-- `BrowserPool.newBrowser`, called for the `i`-th time. `launch i` is the process that
`MustLaunch`/`MustConnect` start, `none` when they panic. The returned error is always nil. -/
def newBrowser (launch : Nat → Option Browser) (i : Nat) :
    Except Fault (Option Browser × Option GoError) :=
  match launch i with
  | none => .error (.panic "launcher: MustLaunch")
  | some b => .ok (some b, none)

/-- The loop `for i := 0; i < cfg.BrowsersCount; i++` of `NewBrowserPool`, from index `i`
with `n` iterations left. -/
def launchLoop (launch : Nat → Option Browser) :
    Nat → Nat → BrowserPool → Except Fault BrowserPool
  | _, 0, bp => .ok bp
  | i, n + 1, bp =>
    match newBrowser launch i with
    | .error f => .error f
    | .ok (_, some _) =>
      match bp.Close with
      | .error f => .error f
      | .ok _ => .error (.exit 1)
    | .ok (browser, none) =>
      match bp.pool.send browser with
      | .error f => .error f
      | .ok ch => launchLoop launch (i + 1) n { bp with pool := ch }

/-- `NewBrowserPool`. -/
def NewBrowserPool (launch : Nat → Option Browser) (cfg : Config) : Except Fault BrowserPool :=
  if cfg.BrowsersCount = 0 then .error (.exit 1)
  else
    match Chan.make cfg.BrowsersCount with
    | .error f => .error f
    | .ok ch => launchLoop launch 0 cfg.BrowsersCount.toNat { cfg := cfg, pool := ch }

/-! ## handler.go -/

abbrev RenderStatus := String

def RenderStatusSuccess : RenderStatus := "success"

def RenderStatusFailed : RenderStatus := "failed"

def RenderStatusSkipped : RenderStatus := "skipped"

/-- The JSON body. `StatusCode` and `Error` are `omitempty`: absent when `0` and `""`. -/
structure Response where
  URL : String
  Rendering : RenderStatus
  StatusCode : Int
  Error : String
  deriving DecidableEq, Repr

def newResponse (url : String) (rendered : RenderStatus) (statusCode : Int) (err : String) :
    Response :=
  { URL := url, Rendering := rendered, StatusCode := statusCode, Error := err }

def StatusOK : Nat := 200

def StatusBadRequest : Nat := 400

def StatusTooManyRequests : Nat := 429

/-- The call in the `rod.Try` closure of `renderPage` that panics. -/
inductive Stage
  | mustPage
  | mustNavigate
  | afterNavigate
  deriving DecidableEq, Repr

/-- How the closure passed to `rod.Try` ends on a live browser: it returns with the status
of the first network response, or a call panics and `rod.Try` returns the error. -/
inductive TryOutcome
  | completed (status : Int)
  | panicked (stage : Stage) (err : GoError)
  deriving DecidableEq, Repr

/-- The calls `renderPage` makes on the pool and on the browser. -/
inductive Effect
  | get
  | mustPage (browser : Option Browser)
  | mustNavigate (url : String)
  | mustClose
  | put (browser : Option Browser)
  deriving DecidableEq, Repr

/-- The result of `rod.Try`: the error, the value left in `statusCode`, the calls made. -/
structure TryResult where
  err : Option GoError
  statusCode : Int
  effects : List Effect
  deriving DecidableEq, Repr

/-- The statement `err = rod.Try(func() ...)` of `renderPage`. On a nil browser
`stealth.MustPage` dereferences it and `rod.Try` recovers the runtime panic. -/
def rodTry (browser : Option Browser) (url : String) (outcome : TryOutcome) : TryResult :=
  match browser with
  | none =>
    { err := some (.wrap "runtime error: invalid memory address or nil pointer dereference"
        (.new "runtime error: invalid memory address or nil pointer dereference")),
      statusCode := 0, effects := [.mustPage none] }
  | some b =>
    match outcome with
    | .completed status =>
      { err := none, statusCode := status,
        effects := [.mustPage (some b), .mustNavigate url, .mustClose] }
    | .panicked .mustPage e =>
      { err := some e, statusCode := 0, effects := [.mustPage (some b)] }
    | .panicked .mustNavigate e =>
      { err := some e, statusCode := 0,
        effects := [.mustPage (some b), .mustNavigate url, .mustClose] }
    | .panicked .afterNavigate e =>
      { err := some e, statusCode := 0,
        effects := [.mustPage (some b), .mustNavigate url, .mustClose] }

/-- What the environment decides during one request. -/
structure RenderEnv where
  sel : SelectEnv
  outcome : TryOutcome
  deriving DecidableEq, Repr

/-- What one call of `renderPage` does: the HTTP status and body given to `c.JSON`, the
calls made, and the pool when the handler has returned (or the fault of the deferred `Put`). -/
structure HandlerResult where
  code : Nat
  body : Response
  effects : List Effect
  after : Except Fault BrowserPool
  deriving DecidableEq, Repr

/-- Lines 39-42 of `renderPage`: the url after the scheme check. -/
def normalizeURL (url : String) : String :=
  if !HasPrefix url "http://" && !HasPrefix url "https://" then "https://" ++ url else url

/-- `renderPage`. `query` is the `url` query parameter (`c.Query` gives `""` when it is
missing). -/
def renderPage (query : Option String) (bp : BrowserPool) (env : RenderEnv) : HandlerResult :=
  let url := query.getD ""
  if url = "" then
    { code := StatusBadRequest,
      body := newResponse "" RenderStatusSkipped 0 "'url' is required",
      effects := [], after := .ok bp }
  else
    let url := normalizeURL url
    match bp.Get env.sel with
    | ((_, some _), bp1) =>
      { code := StatusTooManyRequests,
        body := newResponse url RenderStatusSkipped 0 waitForBrowserTimeoutError.Error,
        effects := [.get], after := .ok bp1 }
    | ((browser, none), bp1) =>
      let t := rodTry browser url env.outcome
      let after := bp1.Put browser
      let effects := [.get] ++ t.effects ++ [.put browser]
      match t.err with
      | some err =>
        if err.isDeadlineExceeded then
          { code := StatusBadRequest,
            body := newResponse url RenderStatusFailed 0 tooLongUploadDeadlineError.Error,
            effects := effects, after := after }
        else
          { code := StatusBadRequest,
            body := newResponse url RenderStatusFailed 0 somethingWentWrongError.Error,
            effects := effects, after := after }
      | none =>
        { code := StatusOK,
          body := newResponse url RenderStatusSuccess t.statusCode "",
          effects := effects, after := after }

/-! ## Runs of the pool -/

/-- One call on the pool by some request. -/
inductive PoolOp
  | get (sel : SelectEnv)
  | put (browser : Option Browser)
  deriving DecidableEq, Repr

/-- The pool together with the instances handed out by `Get` and not yet given to `Put`. -/
structure Sys where
  pool : BrowserPool
  out : List (Option Browser)
  deriving DecidableEq, Repr

/-- Why a run stops: a `Get` that returned an error, a `Put` of something that is not
checked out, or a call that blocked or panicked. -/
inductive StepErr
  | getFailed
  | notCheckedOut
  | fault (f : Fault)
  deriving DecidableEq, Repr

/-- One successful `Get`, or one `Put` of a checked-out instance. -/
def Sys.step (s : Sys) : PoolOp → Except StepErr Sys
  | .get sel =>
    match s.pool.Get sel with
    | ((_, some _), _) => .error .getFailed
    | ((browser, none), bp) => .ok { pool := bp, out := browser :: s.out }
  | .put browser =>
    if browser ∈ s.out then
      match s.pool.Put browser with
      | .error f => .error (.fault f)
      | .ok bp => .ok { pool := bp, out := s.out.erase browser }
    else .error .notCheckedOut

/-- A sequence of calls, stopping at the first that is not allowed or does not return. -/
def Sys.run (s : Sys) : List PoolOp → Except StepErr Sys
  | [] => .ok s
  | op :: ops =>
    match s.step op with
    | .error e => .error e
    | .ok s1 => s1.run ops

/-- The number of instances a `Get` can take without waiting. -/
def BrowserPool.available (bp : BrowserPool) : Nat :=
  bp.pool.buf.length

/-- Spec side: a character allowed in a scheme name. -/
def schemeChar (c : Char) : Bool :=
  c.isAlphanum || c = '+' || c = '-' || c = '.'

/-- Spec side: the url starts with `<scheme>://`, the scheme name being a letter followed by
letters, digits, `+`, `-` or `.`. -/
def hasExplicitScheme (url : String) : Bool :=
  match url.data.takeWhile schemeChar, url.data.dropWhile schemeChar with
  | c :: _, ':' :: '/' :: '/' :: _ => c.isAlpha
  | _, _ => false

/-! ## Example states -/

/-- Every launch succeeds; the `i`-th process has id `i`. -/
def launchOk (i : Nat) : Option Browser :=
  some { id := i }

/-- The wait context is live when `select` runs. -/
def selLive : SelectEnv :=
  { timeoutDone := false, pickTimeout := false }

/-- The wait context is already done (shutdown signal received) and `select` picks the
receive. -/
def selDoneRecv : SelectEnv :=
  { timeoutDone := true, pickTimeout := false }

/-- The pool `NewBrowserPool` makes for `browsers_count: 2`. -/
def pool2 : BrowserPool :=
  { cfg := { BrowsersCount := 2 },
    pool := { cap := 2, buf := [some { id := 0 }, some { id := 1 }], closed := false } }

/-- The pool `pool2` after one `Get`: instance 0 is checked out. -/
def pool2Taken : BrowserPool :=
  { cfg := { BrowsersCount := 2 },
    pool := { cap := 2, buf := [some { id := 1 }], closed := false } }

/-- The pool `pool2Taken` after instance 0 is put back. -/
def pool2Returned : BrowserPool :=
  { cfg := { BrowsersCount := 2 },
    pool := { cap := 2, buf := [some { id := 1 }, some { id := 0 }], closed := false } }

/-- A pool of capacity 2 after `Close`. -/
def pool2Closed : BrowserPool :=
  { cfg := { BrowsersCount := 2 }, pool := { cap := 2, buf := [], closed := true } }

/-- Two requests take an instance, the first gives its instance back, a third takes one. -/
def opsExample : List PoolOp :=
  [.get selLive, .get selLive, .put (some { id := 0 }), .get selLive]

/-- The state `opsExample` leads to from `pool2`. -/
def sysExample : Sys :=
  { pool := { cfg := { BrowsersCount := 2 }, pool := { cap := 2, buf := [], closed := false } },
    out := [some { id := 0 }, some { id := 1 }] }

/-- The instances the `BrowsersCount` launches of `NewBrowserPool` produce. -/
def launched (launch : Nat → Option Browser) (cfg : Config) : List (Option Browser) :=
  (List.range' 0 cfg.BrowsersCount.toNat).map launch

/-- The state of an open pool in use: every launched instance, and no nil, is either queued
in the channel or checked out, and the channel has room for all of them. -/
def Sys.Inv (all : List (Option Browser)) (s : Sys) : Prop :=
  s.pool.pool.closed = false ∧ s.pool.pool.cap = all.length ∧
    (s.pool.pool.buf ++ s.out).Perm all ∧ none ∉ all

/-! ## The pool: creation and runs -/

theorem launchLoop_ok (launch : Nat → Option Browser) (n : Nat) :
    ∀ (i : Nat) (bp bp1 : BrowserPool), launchLoop launch i n bp = .ok bp1 →
      bp1.cfg = bp.cfg ∧ bp1.pool.cap = bp.pool.cap ∧ bp1.pool.closed = bp.pool.closed ∧
        bp1.pool.buf = bp.pool.buf ++ (List.range' i n).map launch ∧
        none ∉ (List.range' i n).map launch := by
  induction n with
  | zero =>
    intro i bp bp1 h
    simp only [launchLoop, Except.ok.injEq] at h
    subst h
    simp
  | succ n ih =>
    intro i bp bp1 h
    unfold launchLoop at h
    cases hl : launch i with
    | none => simp [newBrowser, hl] at h
    | some b =>
      simp only [newBrowser, hl] at h
      cases hs : bp.pool.send (some b) with
      | error f => simp [hs] at h
      | ok ch =>
        simp only [hs] at h
        obtain ⟨h1, h2, h3, h4, h5⟩ := ih (i + 1) _ bp1 h
        have hch : ch = { bp.pool with buf := bp.pool.buf ++ [some b] } := by
          unfold Chan.send at hs
          split at hs
          · cases hs
          · split at hs
            · exact (Except.ok.inj hs).symm
            · cases hs
        subst hch
        refine ⟨h1, h2, h3, ?_, ?_⟩
        · simp [h4, List.range'_succ, hl]
        · simp only [List.range'_succ, List.map_cons, hl, List.mem_cons, not_or]
          exact ⟨by simp, h5⟩

theorem NewBrowserPool_ok (launch : Nat → Option Browser) (cfg : Config) (bp : BrowserPool)
    (h : NewBrowserPool launch cfg = .ok bp) :
    1 ≤ cfg.BrowsersCount ∧ Sys.Inv (launched launch cfg) { pool := bp, out := [] } := by
  unfold NewBrowserPool at h
  by_cases h0 : cfg.BrowsersCount = 0
  · simp [h0] at h
  · by_cases hneg : cfg.BrowsersCount < 0
    · simp [h0, Chan.make, hneg] at h
    · simp only [h0, Chan.make, hneg, if_false] at h
      obtain ⟨_, h2, h3, h4, h5⟩ := launchLoop_ok launch _ 0 _ bp h
      refine ⟨by omega, ?_⟩
      simp only [List.nil_append] at h4
      refine ⟨h3, ?_, ?_, h5⟩
      · simp [h2, launched]
      · simp [h4, launched]

theorem perm_cons_erase_of_mem {α : Type} [BEq α] [LawfulBEq α] {x : α} :
    ∀ {l : List α}, x ∈ l → (x :: l.erase x).Perm l
  | [], h => by cases h
  | y :: ys, h => by
    by_cases hxy : y = x
    · subst hxy
      simp
    · have hmem : x ∈ ys := by
        rcases List.mem_cons.mp h with h1 | h1
        · exact absurd h1.symm hxy
        · exact h1
      have hne : (y == x) = false := by simpa using hxy
      rw [List.erase_cons, hne]
      exact (List.Perm.swap y x _).trans ((perm_cons_erase_of_mem hmem).cons y)

theorem Sys.Inv.length {all : List (Option Browser)} {s : Sys} (h : Sys.Inv all s) :
    s.pool.available + s.out.length = all.length := by
  have := h.2.2.1.length_eq
  simp only [List.length_append] at this
  exact this

theorem Sys.step_inv {all : List (Option Browser)} {s : Sys} (h : Sys.Inv all s) (op : PoolOp) :
    (∃ s1, s.step op = .ok s1 ∧ Sys.Inv all s1) ∨
      s.step op = .error .getFailed ∨ s.step op = .error .notCheckedOut := by
  obtain ⟨hopen, hcap, hperm, hnil⟩ := h
  cases op with
  | get sel =>
    simp only [Sys.step, BrowserPool.Get, Chan.recv]
    cases hb : s.pool.pool.buf with
    | nil => simp [hopen]
    | cons v rest =>
      by_cases hsel : (sel.timeoutDone && sel.pickTimeout) = true
      · simp [hsel]
      · simp only [hsel]
        refine Or.inl ⟨_, rfl, hopen, hcap, ?_, hnil⟩
        rw [hb] at hperm
        exact List.perm_middle.trans hperm
  | put browser =>
    simp only [Sys.step]
    by_cases hmem : browser ∈ s.out
    · simp only [hmem, if_true]
      have hin : browser ∈ all := hperm.subset (List.mem_append_right _ hmem)
      cases browser with
      | none => exact absurd hin hnil
      | some b =>
        have hlen : s.pool.pool.buf.length + s.out.length = all.length := by
          simpa using hperm.length_eq
        have hpos : 0 < s.out.length := List.length_pos_of_mem hmem
        have hroom : s.pool.pool.buf.length < s.pool.pool.cap := by omega
        simp only [BrowserPool.Put, Chan.send, hopen, hroom, if_true, Except.map]
        have hp : (some b :: s.out.erase (some b)).Perm s.out :=
          perm_cons_erase_of_mem hmem
        refine Or.inl ⟨_, rfl, by simp, hcap, ?_, hnil⟩
        refine List.Perm.trans ?_ hperm
        simp only [List.append_assoc, List.singleton_append]
        exact List.Perm.append_left _ hp
    · simp [hmem]

theorem Sys.run_inv {all : List (Option Browser)} (ops : List PoolOp) :
    ∀ {s : Sys}, Sys.Inv all s →
      (∃ s1, s.run ops = .ok s1 ∧ Sys.Inv all s1) ∨
        s.run ops = .error .getFailed ∨ s.run ops = .error .notCheckedOut := by
  induction ops with
  | nil => intro s h; exact Or.inl ⟨s, rfl, h⟩
  | cons op ops ih =>
    intro s h
    rcases Sys.step_inv h op with ⟨s1, h1, hinv⟩ | h1 | h1
    · simp only [Sys.run, h1]
      exact ih hinv
    · simp [Sys.run, h1]
    · simp [Sys.run, h1]

theorem Sys.Inv.get_put {all : List (Option Browser)} {s : Sys} (h : Sys.Inv all s)
    (sel : SelectEnv) (browser : Option Browser) (bp1 : BrowserPool)
    (hget : s.pool.Get sel = ((browser, none), bp1)) :
    bp1.available + 1 = s.pool.available ∧
      ∃ bp2, bp1.Put browser = .ok bp2 ∧ bp2.available = s.pool.available := by
  have hstep := Sys.step_inv h (.get sel)
  simp only [Sys.step, hget] at hstep
  rcases hstep with ⟨s1, h1, hinv⟩ | h1 | h1
  · cases h1
    have hl := h.length
    have hl1 := hinv.length
    simp only [List.length_cons] at hl1
    have hput := Sys.step_inv hinv (.put browser)
    simp only [Sys.step, List.mem_cons, true_or, if_true] at hput
    rcases hput with ⟨s2, h2, hinv2⟩ | h2 | h2
    · cases hp : bp1.Put browser with
      | error f => simp [hp] at h2
      | ok bp2 =>
        simp only [hp, Except.ok.injEq] at h2
        subst h2
        have hl2 := hinv2.length
        simp only [List.erase_cons_head] at hl2
        exact ⟨by omega, bp2, rfl, by omega⟩
    · cases hp : bp1.Put browser <;> simp [hp] at h2
    · cases hp : bp1.Put browser <;> simp [hp] at h2
  · cases h1
  · cases h1

/-! ## The handler: url normalization -/

theorem isPrefixOf_append : ∀ (p l : List Char), p.isPrefixOf l = true → ∃ t, l = p ++ t
  | [], l, _ => ⟨l, rfl⟩
  | _ :: _, [], h => by simp [List.isPrefixOf] at h
  | a :: p, b :: l, h => by
    simp only [List.isPrefixOf, Bool.and_eq_true, beq_iff_eq] at h
    obtain ⟨t, ht⟩ := isPrefixOf_append p l h.2
    exact ⟨t, by rw [h.1, ht]; rfl⟩

theorem hasExplicitScheme_of_http (url : String) (h : HasPrefix url "http://" = true) :
    hasExplicitScheme url = true := by
  obtain ⟨t, ht⟩ := isPrefixOf_append _ _ h
  have hd : url.data = 'h' :: 't' :: 't' :: 'p' :: ':' :: '/' :: '/' :: t := ht
  have h1 : schemeChar 'h' = true := by decide
  have h2 : schemeChar 't' = true := by decide
  have h3 : schemeChar 'p' = true := by decide
  have h4 : schemeChar ':' = false := by decide
  have h5 : Char.isAlpha 'h' = true := by decide
  simp [hasExplicitScheme, hd, List.takeWhile, List.dropWhile, h1, h2, h3, h4, h5]

theorem hasExplicitScheme_of_https (url : String) (h : HasPrefix url "https://" = true) :
    hasExplicitScheme url = true := by
  obtain ⟨t, ht⟩ := isPrefixOf_append _ _ h
  have hd : url.data = 'h' :: 't' :: 't' :: 'p' :: 's' :: ':' :: '/' :: '/' :: t := ht
  have h1 : schemeChar 'h' = true := by decide
  have h2 : schemeChar 't' = true := by decide
  have h3 : schemeChar 'p' = true := by decide
  have h4 : schemeChar ':' = false := by decide
  have h5 : Char.isAlpha 'h' = true := by decide
  have h6 : schemeChar 's' = true := by decide
  simp [hasExplicitScheme, hd, List.takeWhile, List.dropWhile, h1, h2, h3, h4, h5, h6]

theorem normalizeURL_of_no_scheme (url : String) (h : hasExplicitScheme url = false) :
    normalizeURL url = "https://" ++ url := by
  have h1 : HasPrefix url "http://" = false := by
    cases hp : HasPrefix url "http://"
    · rfl
    · rw [hasExplicitScheme_of_http url hp] at h; cases h
  have h2 : HasPrefix url "https://" = false := by
    cases hp : HasPrefix url "https://"
    · rfl
    · rw [hasExplicitScheme_of_https url hp] at h; cases h
  simp [normalizeURL, h1, h2]

theorem normalizeURL_of_http (url : String)
    (h : HasPrefix url "http://" = true ∨ HasPrefix url "https://" = true) :
    normalizeURL url = url := by
  rcases h with h | h <;> simp [normalizeURL, h]

theorem ne_empty_of_http (url : String)
    (h : HasPrefix url "http://" = true ∨ HasPrefix url "https://" = true) : url ≠ "" := by
  rintro rfl
  rcases h with h | h <;> exact absurd h (by decide)

/-- The url in the body and every url navigated to is the normalized one; a completed page
load on a live browser did navigate to it. -/
theorem renderPage_url (url : String) (hurl : url ≠ "") (bp : BrowserPool) (env : RenderEnv) :
    (renderPage (some url) bp env).body.URL = normalizeURL url ∧
    (∀ u, Effect.mustNavigate u ∈ (renderPage (some url) bp env).effects →
      u = normalizeURL url) ∧
    (∀ b bp1 status, bp.Get env.sel = ((some b, none), bp1) →
      env.outcome = .completed status →
      Effect.mustNavigate (normalizeURL url) ∈ (renderPage (some url) bp env).effects) := by
  simp only [renderPage, Option.getD_some, hurl, if_false]
  rcases hget : bp.Get env.sel with ⟨⟨browser, e⟩, bp1⟩
  cases e with
  | some e => simp [newResponse]
  | none =>
    cases browser with
    | none => simp [rodTry, newResponse, GoError.isDeadlineExceeded]
    | some b =>
      rcases hout : env.outcome with status | ⟨stage, err⟩
      · simp [rodTry, newResponse]
      · cases stage <;> by_cases hd : err.isDeadlineExceeded = true <;>
          simp [rodTry, newResponse, hd]

/-! ## Closing the pool -/

theorem closeLoop_ok : ∀ (buf : List (Option Browser)) (acc : List Browser), none ∉ buf →
    ∃ l, closeLoop buf acc = .ok (acc ++ l) ∧ l.map some = buf
  | [], acc, _ => ⟨[], by simp [closeLoop], rfl⟩
  | none :: _, _, h => absurd (List.mem_cons_self _ _) h
  | some b :: rest, acc, h => by
    obtain ⟨l, hl, hm⟩ := closeLoop_ok rest (acc ++ [b]) (fun hn => h (List.mem_cons_of_mem _ hn))
    exact ⟨b :: l, by simp [closeLoop, hl], by simp [hm]⟩

theorem Close_of_inv {all : List (Option Browser)} {s : Sys} (h : Sys.Inv all s) :
    ∃ bp1 closedBrowsers, s.pool.Close = .ok (bp1, closedBrowsers) ∧
      closedBrowsers.map some = s.pool.pool.buf ∧
      bp1.pool.closed = true ∧ bp1.pool.buf = [] := by
  obtain ⟨hopen, _, hperm, hnil⟩ := h
  have hbuf : none ∉ s.pool.pool.buf := fun hn =>
    hnil (hperm.subset (List.mem_append_left _ hn))
  obtain ⟨l, hl, hm⟩ := closeLoop_ok s.pool.pool.buf [] hbuf
  refine ⟨{ s.pool with pool := { cap := s.pool.pool.cap, buf := [], closed := true } }, l,
    ?_, hm, rfl, rfl⟩
  have hl1 : closeLoop s.pool.pool.buf [] = .ok l := hl
  simp [BrowserPool.Close, Chan.close, hopen, hl1]

theorem Close_leaves_closed_empty (bp bp1 : BrowserPool) (closedBrowsers : List Browser)
    (h : bp.Close = .ok (bp1, closedBrowsers)) :
    bp1.pool.closed = true ∧ bp1.pool.buf = [] := by
  unfold BrowserPool.Close at h
  cases hc : bp.pool.close with
  | error f => simp [hc] at h
  | ok ch =>
    have hcl : ch.closed = true := by
      unfold Chan.close at hc
      split at hc
      · cases hc
      · cases hc; rfl
    simp only [hc] at h
    cases hl : closeLoop ch.buf [] with
    | error f => simp [hl] at h
    | ok l =>
      simp only [hl, Except.ok.injEq, Prod.mk.injEq] at h
      obtain ⟨h1, _⟩ := h
      subst h1
      exact ⟨hcl, rfl⟩

/-! ## Claims -/

/-- C1: for a pool made by `NewBrowserPool` (so of capacity `C ≥ 1`) and every sequence of
successful `Get` calls and `Put` calls of checked-out instances, no `Put` blocks or panics,
and after the sequence (hence after each of its steps, every initial part being such a
sequence) the available instances plus the checked-out ones number `C`; so at most `C` are
checked out, and a successful `Get` followed at once by `Put` of what it returned brings the
available count back to what it was. -/
theorem pool_size_invariant (launch : Nat → Option Browser) (cfg : Config) (bp : BrowserPool)
    (hnew : NewBrowserPool launch cfg = .ok bp) (ops : List PoolOp) :
    1 ≤ cfg.BrowsersCount ∧
    (∀ f, Sys.run { pool := bp, out := [] } ops ≠ .error (.fault f)) ∧
    ∀ s, Sys.run { pool := bp, out := [] } ops = .ok s →
      (s.pool.available : Int) + s.out.length = cfg.BrowsersCount ∧
      (s.out.length : Int) ≤ cfg.BrowsersCount ∧
      ∀ sel browser bp1, s.pool.Get sel = ((browser, none), bp1) →
        bp1.available + 1 = s.pool.available ∧
        ∃ bp2, bp1.Put browser = .ok bp2 ∧ bp2.available = s.pool.available := by
  obtain ⟨hC, hinv⟩ := NewBrowserPool_ok launch cfg bp hnew
  have hlen : ((launched launch cfg).length : Int) = cfg.BrowsersCount := by
    simp only [launched, List.length_map, List.length_range']
    omega
  refine ⟨hC, ?_, ?_⟩
  · intro f hf
    rcases Sys.run_inv ops hinv with ⟨s1, h1, _⟩ | h1 | h1 <;> rw [h1] at hf <;> cases hf
  · intro s hs
    rcases Sys.run_inv ops hinv with ⟨s1, h1, hinv1⟩ | h1 | h1
    · rw [h1] at hs
      cases hs
      have hl := hinv1.length
      refine ⟨by omega, by omega, ?_⟩
      intro sel browser bp1 hget
      exact hinv1.get_put sel browser bp1 hget
    · rw [h1] at hs; cases hs
    · rw [h1] at hs; cases hs

/-- C1 at `browsers_count: 2` and the run `opsExample`. -/
theorem pool_size_invariant_witness :
    NewBrowserPool launchOk { BrowsersCount := 2 } = .ok pool2 ∧
    Sys.run { pool := pool2, out := [] } opsExample = .ok sysExample ∧
    (sysExample.pool.available : Int) + sysExample.out.length = 2 ∧
    (sysExample.out.length : Int) ≤ 2 :=
  have h := (pool_size_invariant launchOk { BrowsersCount := 2 } pool2 (by decide)
    opsExample).2.2 sysExample (by decide)
  ⟨by decide, by decide, h.1, h.2.1⟩

/-- C2: for a non-empty url, when `Get` fails with the wait-timeout error, `renderPage`
answers 429 with rendering "skipped", the normalized url, a non-empty error and status code
0; its only call is the `Get` (no page is opened, nothing is put back) and the pool is as
before. -/
theorem renderPage_pool_exhausted (url : String) (hurl : url ≠ "") (bp : BrowserPool)
    (env : RenderEnv) (hget : (bp.Get env.sel).1.2 = some waitForBrowserTimeoutError) :
    (renderPage (some url) bp env).code = 429 ∧
    (renderPage (some url) bp env).body.Rendering = "skipped" ∧
    (renderPage (some url) bp env).body.URL = normalizeURL url ∧
    (renderPage (some url) bp env).body.Error ≠ "" ∧
    (renderPage (some url) bp env).body.StatusCode = 0 ∧
    (renderPage (some url) bp env).effects = [Effect.get] ∧
    (renderPage (some url) bp env).after = .ok bp := by
  have hbp : (bp.Get env.sel).2 = bp := by
    revert hget
    unfold BrowserPool.Get
    cases bp.pool.recv with
    | none => intro _; rfl
    | some r =>
      by_cases hsel : (env.sel.timeoutDone && env.sel.pickTimeout) = true
      · simp [hsel]
      · simp [hsel]
  simp only [renderPage, Option.getD_some, hurl, if_false]
  rcases hg : bp.Get env.sel with ⟨⟨browser, e⟩, bp1⟩
  rw [hg] at hget hbp
  simp only at hget hbp
  subst hget hbp
  refine ⟨rfl, rfl, rfl, ?_, rfl, rfl, rfl⟩
  show waitForBrowserTimeoutError.Error ≠ ""
  decide

/-- C2 at the url "example.com" and a pool whose two instances are both checked out. -/
theorem renderPage_pool_exhausted_witness :
    (renderPage (some "example.com") sysExample.pool
      { sel := selLive, outcome := .completed 200 }).code = 429 ∧
    (renderPage (some "example.com") sysExample.pool
      { sel := selLive, outcome := .completed 200 }).body.URL = "https://example.com" ∧
    (renderPage (some "example.com") sysExample.pool
      { sel := selLive, outcome := .completed 200 }).after = .ok sysExample.pool :=
  have h := renderPage_pool_exhausted "example.com" (by decide) sysExample.pool
    { sel := selLive, outcome := .completed 200 } (by decide)
  ⟨h.1, by decide, h.2.2.2.2.2.2⟩

/-- C3: for a non-empty url without an explicit scheme, the url in the response is
"https://" followed by the url, `renderPage` navigates to no other url, and a page load that
completes on a live browser navigated to it. -/
theorem renderPage_adds_https (url : String) (hurl : url ≠ "")
    (hscheme : hasExplicitScheme url = false) (bp : BrowserPool) (env : RenderEnv) :
    (renderPage (some url) bp env).body.URL = "https://" ++ url ∧
    (∀ u, Effect.mustNavigate u ∈ (renderPage (some url) bp env).effects →
      u = "https://" ++ url) ∧
    (∀ b bp1 status, bp.Get env.sel = ((some b, none), bp1) →
      env.outcome = .completed status →
      Effect.mustNavigate ("https://" ++ url) ∈ (renderPage (some url) bp env).effects) := by
  have h := renderPage_url url hurl bp env
  rw [normalizeURL_of_no_scheme url hscheme] at h
  exact h

/-- C3 at the url "example.com": the page load navigates to "https://example.com". -/
theorem renderPage_adds_https_witness :
    (renderPage (some "example.com") pool2
      { sel := selLive, outcome := .completed 200 }).body.URL = "https://" ++ "example.com" ∧
    Effect.mustNavigate ("https://" ++ "example.com") ∈
      (renderPage (some "example.com") pool2
        { sel := selLive, outcome := .completed 200 }).effects :=
  have h := renderPage_adds_https "example.com" (by decide) (by decide) pool2
    { sel := selLive, outcome := .completed 200 }
  ⟨h.1, h.2.2 { id := 0 } pool2Taken 200 (by decide) rfl⟩

/-- C4 fails at "ftp://example.com": the url has an explicit scheme, yet `renderPage`
navigates to and reports "https://ftp://example.com". -/
theorem renderPage_scheme_counterexample :
    hasExplicitScheme "ftp://example.com" = true ∧
    (renderPage (some "ftp://example.com") pool2
      { sel := selLive, outcome := .completed 200 }).body.URL = "https://ftp://example.com" ∧
    Effect.mustNavigate "https://ftp://example.com" ∈
      (renderPage (some "ftp://example.com") pool2
        { sel := selLive, outcome := .completed 200 }).effects ∧
    (renderPage (some "ftp://example.com") pool2
      { sel := selLive, outcome := .completed 200 }).body.URL ≠ "ftp://example.com" := by
  decide

/-- C4, amended: for a url that starts with "http://" or "https://" (which is a url with an
explicit scheme), the url in the response is the url itself, `renderPage` navigates to no
other url, and a page load that completes on a live browser navigated to it. Every other
non-empty url, whatever scheme it carries, is reported and navigated to as "https://"
followed by the url. -/
theorem renderPage_keeps_http (url : String) (bp : BrowserPool) (env : RenderEnv) :
    (HasPrefix url "http://" = true ∨ HasPrefix url "https://" = true →
      hasExplicitScheme url = true ∧
      (renderPage (some url) bp env).body.URL = url ∧
      (∀ u, Effect.mustNavigate u ∈ (renderPage (some url) bp env).effects → u = url) ∧
      (∀ b bp1 status, bp.Get env.sel = ((some b, none), bp1) →
        env.outcome = .completed status →
        Effect.mustNavigate url ∈ (renderPage (some url) bp env).effects)) ∧
    (url ≠ "" → HasPrefix url "http://" = false → HasPrefix url "https://" = false →
      (renderPage (some url) bp env).body.URL = "https://" ++ url ∧
      (∀ u, Effect.mustNavigate u ∈ (renderPage (some url) bp env).effects →
        u = "https://" ++ url) ∧
      (∀ b bp1 status, bp.Get env.sel = ((some b, none), bp1) →
        env.outcome = .completed status →
        Effect.mustNavigate ("https://" ++ url) ∈ (renderPage (some url) bp env).effects)) := by
  constructor
  · intro hscheme
    have h := renderPage_url url (ne_empty_of_http url hscheme) bp env
    rw [normalizeURL_of_http url hscheme] at h
    refine ⟨?_, h⟩
    rcases hscheme with h1 | h1
    · exact hasExplicitScheme_of_http url h1
    · exact hasExplicitScheme_of_https url h1
  · intro hurl h1 h2
    have h := renderPage_url url hurl bp env
    have hn : normalizeURL url = "https://" ++ url := by simp [normalizeURL, h1, h2]
    rw [hn] at h
    exact h

/-- C4, amended, at the urls "http://example.com", kept as it is, and "ws://example.com",
which carries another scheme and gets "https://" in front. -/
theorem renderPage_keeps_http_witness :
    ((renderPage (some "http://example.com") pool2
      { sel := selLive, outcome := .completed 200 }).body.URL = "http://example.com" ∧
    Effect.mustNavigate "http://example.com" ∈
      (renderPage (some "http://example.com") pool2
        { sel := selLive, outcome := .completed 200 }).effects) ∧
    hasExplicitScheme "ws://example.com" = true ∧
    (renderPage (some "ws://example.com") pool2
      { sel := selLive, outcome := .completed 200 }).body.URL =
        "https://" ++ "ws://example.com" ∧
    Effect.mustNavigate ("https://" ++ "ws://example.com") ∈
      (renderPage (some "ws://example.com") pool2
        { sel := selLive, outcome := .completed 200 }).effects :=
  have h := (renderPage_keeps_http "http://example.com" pool2
    { sel := selLive, outcome := .completed 200 }).1 (Or.inl (by decide))
  have h1 := (renderPage_keeps_http "ws://example.com" pool2
    { sel := selLive, outcome := .completed 200 }).2 (by decide) (by decide) (by decide)
  ⟨⟨h.2.1, h.2.2.2 { id := 0 } pool2Taken 200 (by decide) rfl⟩, by decide, h1.1,
    h1.2.2 { id := 0 } pool2Taken 200 (by decide) rfl⟩

/-- C5: when the url query parameter is missing or empty, `renderPage` answers 400 with
rendering "skipped" and a non-empty error, makes no call at all (so no `Get`), and leaves
the pool as it was. -/
theorem renderPage_missing_url (query : Option String) (hq : query = none ∨ query = some "")
    (bp : BrowserPool) (env : RenderEnv) :
    (renderPage query bp env).code = 400 ∧
    (renderPage query bp env).body.Rendering = "skipped" ∧
    (renderPage query bp env).body.Error ≠ "" ∧
    (renderPage query bp env).effects = [] ∧
    (renderPage query bp env).after = .ok bp := by
  have hne : "'url' is required" ≠ "" := by decide
  rcases hq with rfl | rfl <;>
    exact ⟨rfl, rfl, hne, rfl, rfl⟩

/-- C5 at a request without the url parameter. -/
theorem renderPage_missing_url_witness :
    (renderPage none pool2 { sel := selLive, outcome := .completed 200 }).code = 400 ∧
    (renderPage none pool2 { sel := selLive, outcome := .completed 200 }).after = .ok pool2 :=
  have h := renderPage_missing_url none (Or.inl rfl) pool2
    { sel := selLive, outcome := .completed 200 }
  ⟨h.1, h.2.2.2.2⟩

/-- C6: when `Get` succeeded and the error `rod.Try` returns is or wraps
`context.DeadlineExceeded`, `renderPage` answers 400 with rendering "failed" and the error
"page load timeout. Deadline exceeded": not "success", and not the generic message. -/
theorem renderPage_deadline (url : String) (hurl : url ≠ "") (bp bp1 : BrowserPool)
    (env : RenderEnv) (browser : Option Browser) (err : GoError)
    (hget : bp.Get env.sel = ((browser, none), bp1))
    (herr : (rodTry browser (normalizeURL url) env.outcome).err = some err)
    (hdl : err.isDeadlineExceeded = true) :
    (renderPage (some url) bp env).code = 400 ∧
    (renderPage (some url) bp env).body =
      { URL := normalizeURL url, Rendering := "failed", StatusCode := 0,
        Error := "page load timeout. Deadline exceeded" } ∧
    (renderPage (some url) bp env).body.Rendering ≠ RenderStatusSuccess ∧
    (renderPage (some url) bp env).body.Error ≠ somethingWentWrongError.Error := by
  simp only [renderPage, Option.getD_some, hurl, if_false, hget, herr, hdl, if_true]
  have hr : RenderStatusFailed ≠ RenderStatusSuccess := by decide
  have he : tooLongUploadDeadlineError.Error ≠ somethingWentWrongError.Error := by decide
  exact ⟨rfl, rfl, hr, he⟩

/-- C6 at a page load that runs past the deadline after navigating: `rod.Try` returns an
error wrapping `context.DeadlineExceeded`. -/
theorem renderPage_deadline_witness :
    (renderPage (some "example.com") pool2
      { sel := selLive,
        outcome := .panicked .afterNavigate (.wrap "try error" .deadlineExceeded) }).code
      = 400 ∧
    (renderPage (some "example.com") pool2
      { sel := selLive,
        outcome := .panicked .afterNavigate (.wrap "try error" .deadlineExceeded) }).body =
      { URL := normalizeURL "example.com", Rendering := "failed", StatusCode := 0,
        Error := "page load timeout. Deadline exceeded" } :=
  have h := renderPage_deadline "example.com" (by decide) pool2
    pool2Taken
    { sel := selLive,
      outcome := .panicked .afterNavigate (.wrap "try error" .deadlineExceeded) }
    (some { id := 0 }) (.wrap "try error" .deadlineExceeded) (by decide) (by decide)
    (by decide)
  ⟨h.1, h.2.1⟩

/-- C7: the error field of every response is empty or one of the four fixed messages, and
two renders of the same request on the same pool whose page loads fail, at whatever call,
with any two errors that are not deadline errors give the same status and body. -/
theorem renderPage_error_sanitized (query : Option String) (bp : BrowserPool)
    (env : RenderEnv) (stage1 stage2 : Stage) (err1 err2 : GoError)
    (h1 : err1.isDeadlineExceeded = false) (h2 : err2.isDeadlineExceeded = false) :
    (renderPage query bp env).body.Error ∈
      ["", "'url' is required", waitForBrowserTimeoutError.Error,
        tooLongUploadDeadlineError.Error, somethingWentWrongError.Error] ∧
    (renderPage query bp { env with outcome := .panicked stage1 err1 }).code =
      (renderPage query bp { env with outcome := .panicked stage2 err2 }).code ∧
    (renderPage query bp { env with outcome := .panicked stage1 err1 }).body =
      (renderPage query bp { env with outcome := .panicked stage2 err2 }).body := by
  unfold renderPage
  by_cases hurl : query.getD "" = ""
  · simp [hurl, newResponse]
  · simp only [hurl, if_false]
    rcases hget : bp.Get env.sel with ⟨⟨browser, e⟩, bp1⟩
    cases e with
    | some e => simp [newResponse]
    | none =>
      cases browser with
      | none => simp [rodTry, newResponse, GoError.isDeadlineExceeded]
      | some b =>
        refine ⟨?_, ?_, ?_⟩
        · rcases hout : env.outcome with status | ⟨stage, err⟩
          · simp [rodTry, newResponse]
          · cases stage <;> by_cases hd : err.isDeadlineExceeded = true <;>
              simp [rodTry, newResponse, hd]
        · cases stage1 <;> cases stage2 <;> simp [rodTry, h1, h2]
        · cases stage1 <;> cases stage2 <;> simp [rodTry, h1, h2]

/-- C7 at two different internal errors raised at different calls. -/
theorem renderPage_error_sanitized_witness :
    (renderPage (some "example.com") pool2
      { sel := selLive, outcome := .panicked .mustNavigate (.new "net::ERR_NAME") }).body =
    (renderPage (some "example.com") pool2
      { sel := selLive,
        outcome := .panicked .afterNavigate (.new "websocket closed") }).body :=
  (renderPage_error_sanitized (some "example.com") pool2
    { sel := selLive, outcome := .completed 200 } .mustNavigate .afterNavigate
    (.new "net::ERR_NAME") (.new "websocket closed") rfl rfl).2.2

/-- C8 fails for an instance that has already been released: `Put` sends it again. With
room in the channel the instance is queued twice; with the channel full the call blocks. -/
theorem Put_released_counterexample :
    sysExample.pool.Put (some { id := 0 }) =
      .ok { sysExample.pool with pool := { cap := 2, buf := [some { id := 0 }], closed := false } } ∧
    BrowserPool.Put
      { sysExample.pool with pool := { cap := 2, buf := [some { id := 0 }], closed := false } }
      (some { id := 0 }) =
      .ok { sysExample.pool with
        pool := { cap := 2, buf := [some { id := 0 }, some { id := 0 }], closed := false } } ∧
    pool2.Get selLive = ((some { id := 0 }, none), pool2Taken) ∧
    pool2Taken.Put (some { id := 0 }) = .ok pool2Returned ∧
    pool2Returned.Put (some { id := 0 }) = .error .blocked := by
  decide

/-- C8, amended: `Put` of a nil reference is a no-op in every state of the pool, full or
closed ones included: it returns, and the pool is unchanged. `Put` of a non-nil instance,
released before or not, sends it to the channel: on a closed channel the call panics, on an
open channel with room it queues the instance once more at the end, on an open full channel
it blocks; so it never returns with the pool unchanged. -/
theorem Put_nil_noop (bp : BrowserPool) (b : Browser) :
    bp.Put none = .ok bp ∧
    (bp.pool.closed = true →
      bp.Put (some b) = .error (.panic "send on closed channel")) ∧
    (bp.pool.closed = false → bp.pool.buf.length < bp.pool.cap →
      bp.Put (some b) =
        .ok { bp with pool := { bp.pool with buf := bp.pool.buf ++ [some b] } }) ∧
    (bp.pool.closed = false → bp.pool.cap ≤ bp.pool.buf.length →
      bp.Put (some b) = .error .blocked) ∧
    bp.Put (some b) ≠ .ok bp := by
  refine ⟨rfl, ?_, ?_, ?_, ?_⟩
  · intro hc
    simp [BrowserPool.Put, Chan.send, hc, Except.map]
  · intro hc hroom
    simp [BrowserPool.Put, Chan.send, hc, hroom, Except.map]
  · intro hc hfull
    have hroom : ¬ bp.pool.buf.length < bp.pool.cap := by omega
    simp [BrowserPool.Put, Chan.send, hc, hroom, Except.map]
  · intro h
    simp only [BrowserPool.Put, Chan.send] at h
    by_cases hc : bp.pool.closed = true
    · simp [hc, Except.map] at h
    · by_cases hroom : bp.pool.buf.length < bp.pool.cap
      · have hc1 : bp.pool.closed = false := by simpa using hc
        simp only [hc1, hroom, if_true, Except.map] at h
        have hbuf := congrArg (fun p : BrowserPool => p.pool.buf.length) (Except.ok.inj h)
        simp at hbuf
      · simp [hc, hroom, Except.map] at h

/-- C8, amended, at three states of the pool of capacity 2: closed, open with one free
place, and open and full. -/
theorem Put_nil_noop_witness :
    pool2Closed.Put (some { id := 0 }) = .error (.panic "send on closed channel") ∧
    pool2Taken.Put (some { id := 1 }) =
      .ok { pool2Taken with
        pool := { pool2Taken.pool with buf := pool2Taken.pool.buf ++ [some { id := 1 }] } } ∧
    pool2Returned.Put (some { id := 0 }) = .error .blocked ∧
    pool2Returned.Put none = .ok pool2Returned :=
  ⟨(Put_nil_noop pool2Closed { id := 0 }).2.1 rfl,
    (Put_nil_noop pool2Taken { id := 1 }).2.2.1 rfl (by decide),
    (Put_nil_noop pool2Returned { id := 0 }).2.2.2.1 rfl (by decide),
    (Put_nil_noop pool2Returned { id := 0 }).1⟩

/-- C9 fails: after `Close` of a pool of two instances, `Get` returns a nil instance with a
nil error, both when the wait context is live and when it is done and `select` picks the
receive. -/
theorem Get_after_Close_counterexample :
    pool2.Close = .ok (pool2Closed, [{ id := 0 }, { id := 1 }]) ∧
    pool2Closed.Get selLive = ((none, none), pool2Closed) ∧
    pool2Closed.Get selDoneRecv = ((none, none), pool2Closed) := by
  decide

/-- C9, amended: after `Close` has completed, every `Get` returns at once, with a nil
browser, and leaves the pool as it is; its error is the wait-timeout error when the wait
context is already done and `select` picks that case, and nil otherwise. -/
theorem Get_after_Close_nil (bp bp1 : BrowserPool) (closedBrowsers : List Browser)
    (hclose : bp.Close = .ok (bp1, closedBrowsers)) (sel : SelectEnv) :
    bp1.Get sel =
      ((none, if sel.timeoutDone && sel.pickTimeout then some waitForBrowserTimeoutError
        else none), bp1) := by
  obtain ⟨hcl, hbuf⟩ := Close_leaves_closed_empty bp bp1 closedBrowsers hclose
  unfold BrowserPool.Get Chan.recv
  rw [hbuf]
  by_cases hsel : (sel.timeoutDone && sel.pickTimeout) = true
  · simp [hcl, hsel]
  · simp [hcl, hsel]

/-- C9, amended, at the pool of two instances, with the wait context done and `select`
picking the timeout. -/
theorem Get_after_Close_nil_witness :
    pool2.Close = .ok (pool2Closed, [{ id := 0 }, { id := 1 }]) ∧
    pool2Closed.Get { timeoutDone := true, pickTimeout := true } =
      ((none, some waitForBrowserTimeoutError), pool2Closed) :=
  ⟨by decide, Get_after_Close_nil pool2 pool2Closed [{ id := 0 }, { id := 1 }] (by decide)
    { timeoutDone := true, pickTimeout := true }⟩

/-- C10 fails with one instance checked out: `Close` on the pool of capacity 2 returns
having closed only instance 1; instance 0 is not closed, and its later `Put` panics. -/
theorem Close_outstanding_counterexample :
    NewBrowserPool launchOk { BrowsersCount := 2 } = .ok pool2 ∧
    pool2.Get selLive = ((some { id := 0 }, none), pool2Taken) ∧
    pool2Taken.Close = .ok (pool2Closed, [{ id := 1 }]) ∧
    pool2Closed.Put (some { id := 0 }) = .error (.panic "send on closed channel") := by
  decide

/-- C10, amended: in every state a pool of capacity `C` reaches with `k` instances checked
out, `Close` returns, having closed exactly the `C - k` instances that were available, and
leaves the channel closed and empty; when none is checked out these are all the instances
that were launched. It does not wait for the `k` outstanding ones. -/
theorem Close_closes_available (launch : Nat → Option Browser) (cfg : Config)
    (bp : BrowserPool) (hnew : NewBrowserPool launch cfg = .ok bp) (ops : List PoolOp)
    (s : Sys) (hrun : Sys.run { pool := bp, out := [] } ops = .ok s) :
    ∃ bp1 closedBrowsers, s.pool.Close = .ok (bp1, closedBrowsers) ∧
      closedBrowsers.map some = s.pool.pool.buf ∧
      (closedBrowsers.length : Int) + s.out.length = cfg.BrowsersCount ∧
      (s.out = [] → (closedBrowsers.map some).Perm (launched launch cfg)) ∧
      bp1.pool.closed = true ∧ bp1.pool.buf = [] := by
  obtain ⟨hC, hinv⟩ := NewBrowserPool_ok launch cfg bp hnew
  have hlen : ((launched launch cfg).length : Int) = cfg.BrowsersCount := by
    simp only [launched, List.length_map, List.length_range']
    omega
  rcases Sys.run_inv ops hinv with ⟨s1, h1, hinv1⟩ | h1 | h1
  · rw [h1] at hrun
    cases hrun
    obtain ⟨bp1, l, hcl, hm, hc, hb⟩ := Close_of_inv hinv1
    refine ⟨bp1, l, hcl, hm, ?_, ?_, hc, hb⟩
    · have hl := hinv1.length
      have hml : l.length = s.pool.pool.buf.length := by rw [← hm, List.length_map]
      simp only [BrowserPool.available] at hl
      omega
    · intro hout
      have hp := hinv1.2.2.1
      rw [hout, List.append_nil] at hp
      rw [hm]
      exact hp
  · rw [h1] at hrun; cases hrun
  · rw [h1] at hrun; cases hrun

/-- C10, amended, at the pool of two instances: with none checked out `Close` closes both;
after the run `opsExample`, with both checked out, it closes none. -/
theorem Close_closes_available_witness :
    (∃ bp1 closedBrowsers, pool2.Close = .ok (bp1, closedBrowsers) ∧
      closedBrowsers.map some = pool2.pool.buf ∧
      (closedBrowsers.length : Int) + 0 = 2 ∧
      (([] : List (Option Browser)) = [] →
        (closedBrowsers.map some).Perm (launched launchOk { BrowsersCount := 2 })) ∧
      bp1.pool.closed = true ∧ bp1.pool.buf = []) ∧
    sysExample.pool.Close = .ok (pool2Closed, []) :=
  ⟨Close_closes_available launchOk { BrowsersCount := 2 } pool2 (by decide) []
    { pool := pool2, out := [] } rfl, by decide⟩

end RenderPageApi
